import Mathlib

/-!
Verification of the partitioned account registry of `src/server.js`.

User accounts are stored across several JSONBin "bins" (the spec's
partitions).  We embed the registry helpers (`fetchAllUserRecords`,
`findUserAndBin`), the bin store, and the mutation endpoints that the
claims are about, as executable Lean functions, and prove or refute the
spec's claims about them.

Conventions of the embedding:
* a remote bin is a `Bin`: a name (the bin id), an opaque revision
  counter (JSONBin's version metadata; the JS code never reads it), and
  the stored account list;
* the remote state is a `Store`, the list of bins in
  `ALL_USERS_BIN_IDS` order;
* a JS value that may be `undefined` is an `Option`; property access on
  a possibly-undefined value goes through `jsGet`, which throws
  (`Except.error .typeError`) on `none`, exactly as JS throws a
  `TypeError` on property access of `undefined`;
* `fetch` results are modelled by `ReadOutcome` (a failed or malformed
  response, or a parsed payload whose `record.users` may be absent).
-/

/-- A pending friend request as stored on the receiver
(`{ from: sender.id, fromUsername: sender.username }`, src/server.js:476). -/
structure FriendReq where
  fromId : Nat
  fromUsername : String
deriving DecidableEq, Repr

/-- A user account as the handlers under verification touch it.  JS
objects may lack the `friends`, `friendRequests` and `gamepasses` keys
(the handlers guard with `|| []` / `if (!x) x = []`), so those fields
are `Option`. -/
structure User where
  id : Nat
  username : String
  authTokens : Int
  friends : Option (List Nat)
  friendRequests : Option (List FriendReq)
  gamepasses : Option (List String)
deriving DecidableEq, Repr

instance : Inhabited User := ⟨⟨0, "", 0, none, none, none⟩⟩

/-- One remote user bin: its JSONBin id, its revision metadata (never
read by the JS code), and the stored `users` array. -/
structure Bin where
  name : String
  rev : Nat
  users : List User
deriving DecidableEq, Repr

/-- The remote state of all user bins, in `ALL_USERS_BIN_IDS` order
(src/server.js:54-57). -/
abbrev Store := List Bin

/-- `allUsers` as built by `fetchAllUserRecords` (src/server.js:123-132):
the concatenation of every bin's user list, in bin order. -/
def mergedUsers : Store → List User
  | [] => []
  | b :: rest => b.users ++ mergedUsers rest

/-- The stored user list of the first bin with the given id (bin ids are
unique keys in the remote store). -/
def binUsers : Store → String → Option (List User)
  | [], _ => none
  | b :: rest, target => if b.name = target then some b.users else binUsers rest target

/-- The revision metadata of the first bin with the given id. -/
def binRev : Store → String → Option Nat
  | [], _ => none
  | b :: rest, target => if b.name = target then some b.rev else binRev rest target

/-- A whole-document `PUT` of a user bin (e.g. src/server.js:749-753):
overwrites the stored list and advances the backend's revision. -/
def putBin : Store → String → List User → Store
  | [], _, _ => []
  | b :: rest, target, usersNew =>
    if b.name = target then { b with rev := b.rev + 1, users := usersNew } :: rest
    else b :: putBin rest target usersNew

/-- Revision advance of a `PUT` whose body is the bin's already-updated
in-memory array (used when a handler mutates the array in place and then
writes it back unchanged relative to the modelled store content). -/
def bumpRev : Store → String → Store
  | [], _ => []
  | b :: rest, target =>
    if b.name = target then { b with rev := b.rev + 1 } :: rest
    else b :: bumpRev rest target

/-- JS `Array.prototype.findIndex`, with `-1` modelled as `none`. -/
def jsFindIndex (p : α → Bool) : List α → Option Nat
  | [] => none
  | a :: as => if p a then some 0 else (jsFindIndex p as).map (· + 1)

/-- An in-place mutation of element `i` of a bin's in-memory `users`
array (e.g. `userBinUsers[userIndex].authTokens -= fee`,
src/server.js:747), followed by the write-back of that array: the
element is replaced, everything else is untouched.  Out-of-range
indices never occur (they come from successful `findIndex` calls). -/
def updateUsers (l : List User) (i : Nat) (f : User → User) : List User :=
  match l.get? i with
  | none => l
  | some u => l.set i (f u)

/-- Apply `updateUsers` to the content of the (first) bin named `target`. -/
def updateUserAt : Store → String → Nat → (User → User) → Store
  | [], _, _, _ => []
  | b :: rest, target, i, f =>
    if b.name = target then { b with users := updateUsers b.users i f } :: rest
    else b :: updateUserAt rest target i f

/-- The user stored at position `i` of the bin named `b`. -/
def userAt? (s : Store) (b : String) (i : Nat) : Option User :=
  (binUsers s b).bind (fun us => us.get? i)

/-- Sum of the `authTokens` balances of a user list. -/
def usersSum (l : List User) : Int := (l.map (fun u => u.authTokens)).sum

/-- Sum of all account balances over all partitions. -/
def storeSum (s : Store) : Int := (s.map (fun b => usersSum b.users)).sum

/-- The outcome the server observes for one bin read: `fail` covers a
rejected fetch, a non-ok HTTP status and a malformed (unparseable)
payload — all of which make `fetchAllUserRecords` throw
(src/server.js:117-121); `ok users?` is a parsed payload whose
`record.users` may be absent (`none`). -/
inductive ReadOutcome where
  | fail
  | ok (users? : Option (List User))
deriving DecidableEq, Repr

/-- One entry of the `binRecords` map built by `fetchAllUserRecords`
(src/server.js:131). -/
structure BinRecord where
  binId : String
  users : List User
deriving DecidableEq, Repr

/-- The per-bin part of `fetchAllUserRecords` (src/server.js:117-132):
any failed read throws (the whole call rejects); a parsed payload
without `record.users` contributes the empty list. -/
def collectReads : List (String × ReadOutcome) → Except String (List BinRecord)
  | [] => .ok []
  | (b, .fail) :: _ => .error ("Failed to fetch bin: " ++ b)
  | (b, .ok users?) :: rest =>
    (collectReads rest).map (fun rs => ⟨b, users?.getD []⟩ :: rs)

/-- `fetchAllUserRecords` (src/server.js:112-134): reads every user bin;
if any read fails the whole operation fails; otherwise returns the
merged `allUsers` list and the per-bin records. -/
def fetchAllUserRecords (reads : List (String × ReadOutcome)) :
    Except String (List User × List BinRecord) :=
  (collectReads reads).map (fun rs => ((rs.map (fun r => r.users)).foldr (· ++ ·) [], rs))

/-- The object returned by `findUserAndBin` (src/server.js:147-151).
It has exactly the keys `binId`, `users` and `userIndex` — despite the
doc comment at src/server.js:140 also promising a `user` key, none is
ever put on the object. -/
structure FindResult where
  binId : String
  users : List User
  userIndex : Nat
deriving DecidableEq, Repr

/-- Reading the `user` key of a `findUserAndBin` result.  The returned
object (src/server.js:147-151) carries no such key, so in JS the access
yields `undefined`, modelled as `none`. -/
def FindResult.userKey (_ : FindResult) : Option User := none

/-- `findUserAndBin` (src/server.js:142-155): scans the bins in
`ALL_USERS_BIN_IDS` order and returns the first bin whose user list
contains the id, together with the index found by `findIndex`;
`null` (here `none`) if no bin contains the id. -/
def findUserAndBin : Store → Nat → Option FindResult
  | [], _ => none
  | b :: rest, userId =>
    match jsFindIndex (fun u => u.id == userId) b.users with
    | some i => some ⟨b.name, b.users, i⟩
    | none => findUserAndBin rest userId

/-- JS `String.prototype.toLowerCase`, written as a character-wise map
(equivalent to `String.toLower`, but stated so that it evaluates inside
the kernel). -/
def jsToLower (s : String) : String := String.mk (s.data.map Char.toLower)

/-- `allUsers.find(u => u.username.toLowerCase() === uname)` as used to
locate the platform owner account (src/server.js:956, 1094, 1305-1306). -/
def findByUsername (s : Store) (uname : String) : Option User :=
  (mergedUsers s).find? (fun u => jsToLower u.username == uname)

/-- JS property access on a possibly-undefined value: accessing a
property of `undefined` throws a `TypeError`. -/
inductive JsError where
  | typeError
deriving DecidableEq, Repr

/-- Evaluate `v.prop` where `v` may be JS `undefined` (`none`). -/
def jsGet (v : Option α) (f : α → β) : Except JsError β :=
  match v with
  | none => .error .typeError
  | some a => .ok (f a)

/-- The HTTP responses produced by the handlers under verification.
The payload string is the `message` field of the JSON body. -/
inductive Resp where
  | badRequest (msg : String)
  | forbidden (msg : String)
  | notFound (msg : String)
  | serverError (msg : String)
  | success (msg : String)
deriving DecidableEq, Repr

/-! ## Single-partition mutation endpoints -/

/-- `POST /api/creator/pay-fee` (src/server.js:733-759), split into its
two network phases: the user bins are fetched while the remote state is
`s0` (checkout), and the unconditional `PUT` at src/server.js:749-753
lands on the remote state `s1` (which concurrent writers may have moved
on from `s0` in the meantime).  The handler locates the payer, rejects
if `authTokens < 1000`, otherwise decrements and writes the whole
mutated bin back — it reads nothing at write time and compares no
revision marker. -/
def payFeeTwoPhase (s0 s1 : Store) (userId : Nat) : Resp × Store :=
  match findUserAndBin s0 userId with
  | none => (.notFound "User not found.", s1)
  | some fr =>
    let u := fr.users.getD fr.userIndex default
    if u.authTokens < 1000 then (.badRequest "Not enough AuthTokens.", s1)
    else
      let u' := { u with authTokens := u.authTokens - 1000 }
      (.success "Payment successful!", putBin s1 fr.binId (fr.users.set fr.userIndex u'))

/-- `POST /api/creator/pay-fee` when no concurrent writer interleaves
between its read and its write. -/
def payFeeHandler (s : Store) (userId : Nat) : Resp × Store :=
  payFeeTwoPhase s s userId

/-- A user group (src/server.js:198-206). -/
structure UserGroup where
  id : Nat
  name : String
  description : String
  iconUrl : String
  ownerId : Nat
  members : List Nat
  createdAt : String
deriving DecidableEq, Repr

/-- `POST /api/create-group` (src/server.js:158-234).  `groups` is the
content of the groups bin, `now` the timestamp `new Date().toISOString()`
observed by the handler.  Field validation, user lookup and the
5000-token balance check all happen before either `PUT`; the
insufficient-balance branch (src/server.js:188-190) returns 403 and
leaves both stores untouched. -/
def createGroupHandler (s : Store) (groups : List UserGroup) (userId : Nat)
    (groupName groupDescription groupIconUrl now : String) :
    Resp × Store × List UserGroup :=
  if userId = 0 ∨ groupName = "" ∨ groupDescription = "" then
    (.badRequest "Missing required fields.", s, groups)
  else
    match findUserAndBin s userId with
    | none => (.notFound "User not found.", s, groups)
    | some fr =>
      let u := fr.users.getD fr.userIndex default
      if u.authTokens < 5000 then (.forbidden "Insufficient AuthTokens.", s, groups)
      else
        let u' := { u with authTokens := u.authTokens - 5000 }
        let newGroupId :=
          if groups.length > 0 then (groups.map (fun g => g.id)).foldr Nat.max 0 + 1 else 1
        let newGroup : UserGroup :=
          ⟨newGroupId, groupName, groupDescription, groupIconUrl, userId, [userId], now⟩
        (.success "Group created successfully!",
          putBin s fr.binId (fr.users.set fr.userIndex u'),
          groups ++ [newGroup])

/-- The account located by `GET /api/users/search/:id`
(src/server.js:246-253): the first match by id in the freshly fetched
merged view.  The HTTP response then projects this account to its
public fields. -/
def searchFound (s : Store) (searchId : Nat) : Option User :=
  (mergedUsers s).find? (fun u => u.id == searchId)

/-! ## Friend-accept endpoint -/

/-- Removing every pending request from `requesterId` on the accepter
(src/server.js:512). -/
def dropRequestsFrom (requesterId : Nat) (u : User) : User :=
  { u with
    friendRequests := some ((u.friendRequests.getD []).filter
      (fun r => r.fromId != requesterId)) }

/-- `if (!x.friends) x.friends = []` (src/server.js:515-516). -/
def ensureFriends (u : User) : User :=
  { u with friends := some (u.friends.getD []) }

/-- The guarded push of src/server.js:518-523: append `fid` to the
friends list only when it is not already present. -/
def pushFriendIfAbsent (fid : Nat) (u : User) : User :=
  if (u.friends.getD []).contains fid then u
  else { u with friends := some (u.friends.getD [] ++ [fid]) }

/-- `POST /api/friends/accept` (src/server.js:494-545).  The JS handler
mutates the checked-out bin arrays in place and then `PUT`s each
touched bin (once when both users share a bin, src/server.js:531); the
in-place mutations on possibly-aliased arrays are modelled as
sequential store updates at the positions located before any mutation
(ids and positions are not changed by the mutations, so the located
indices stay valid throughout). -/
def acceptFriendHandler (s : Store) (accepterId requesterId : Nat) : Resp × Store :=
  if accepterId = 0 ∨ requesterId = 0 then (.badRequest "Missing IDs.", s)
  else
    match findUserAndBin s accepterId, findUserAndBin s requesterId with
    | some af, some rf =>
      -- src 512: drop every pending request from the requester
      let s1 := updateUserAt s af.binId af.userIndex (dropRequestsFrom requesterId)
      -- src 515-516: initialize missing friends arrays
      let s2 := updateUserAt s1 af.binId af.userIndex ensureFriends
      let s3 := updateUserAt s2 rf.binId rf.userIndex ensureFriends
      -- src 518-523: guarded pushes
      let s4 := updateUserAt s3 af.binId af.userIndex (pushFriendIfAbsent requesterId)
      let s5 := updateUserAt s4 rf.binId rf.userIndex (pushFriendIfAbsent accepterId)
      -- src 526-537: PUT the accepter's bin, and the requester's if different
      let s6 :=
        if af.binId = rf.binId then bumpRev s5 af.binId
        else bumpRev (bumpRev s5 af.binId) rf.binId
      (.success "Friend request accepted.", s6)
    | _, _ => (.notFound "User not found.", s)

/-! ## Purchase transaction logic -/

/-- In-memory balance adjustment of the user at position `i` of bin
`b` by `d` tokens (mirrors `xs[i].authTokens += d` on a checked-out
array that is afterwards written back). -/
def adjustTokens (s : Store) (b : String) (i : Nat) (d : Int) : Store :=
  updateUserAt s b i (fun u => { u with authTokens := u.authTokens + d })

/-- The revenue split of `POST /api/games/purchase-gamepass`
(src/server.js:968-969).  JS computes `Math.floor(price * 0.35)` and
`Math.floor(price * 0.05)` in binary floating point; at the concrete
prices evaluated in the theorems below the double products are exact,
and the cut is embedded as integer division. -/
def gamepassOwnerCut (price : Nat) : Nat := price * 35 / 100

/-- `Math.floor(price * 0.05)` of src/server.js:969 (see
`gamepassOwnerCut` on the floating-point embedding). -/
def gamepassPlatformCut (price : Nat) : Nat := price * 5 / 100

/-- The account mutations of the `purchase-gamepass` transaction logic
(src/server.js:955-975): debit the buyer by `price`; then, if the
platform owner account (`madeonice`) is located, credit it with
`ownerCut + platformCut`.  Both positions are located before any
mutation, exactly as the JS code checks out its arrays before mutating
them. -/
def gamepassTransaction (s : Store) (userId : Nat) (price : Nat) : Store :=
  match findUserAndBin s userId with
  | none => s
  | some bf =>
    match findByUsername s "madeonice" with
    | none => s
    | some ownerUser =>
      let s1 := adjustTokens s bf.binId bf.userIndex (-(price : Int))
      match findUserAndBin s ownerUser.id with
      | some of0 =>
        adjustTokens s1 of0.binId of0.userIndex
          ((gamepassOwnerCut price : Int) + (gamepassPlatformCut price : Int))
      | none => s1

/-- `Math.floor(gamepass.price * 0.70)` of src/server.js:1105 (see
`gamepassOwnerCut` on the floating-point embedding; the conservation
theorem below does not depend on the cut's exact value, because the
platform cut is defined as the remainder `price - ownerCut`). -/
def authdonateOwnerCut (price : Nat) : Nat := price * 70 / 100

/-- The account mutations of the `authdonate/purchase` transaction
logic (src/server.js:1092-1116): debit the buyer by the price, credit
the gamepass owner with `ownerCut`, and credit the remainder
`price - ownerCut` to the platform account `madeonice` — or, when the
owner shares a bin with `madeonice`, to the owner (the quirk of
src/server.js:1114-1115); if `madeonice` cannot be located the
remainder is credited to nobody. -/
def authdonateTransaction (s : Store) (buyerId ownerId : Nat) (price : Nat) : Store :=
  match findUserAndBin s buyerId, findUserAndBin s ownerId with
  | some bf, some of0 =>
    let ownerCut := authdonateOwnerCut price
    let platformCut : Int := (price : Int) - (ownerCut : Int)
    let mf? := (findByUsername s "madeonice").bind (fun m => findUserAndBin s m.id)
    let s1 := adjustTokens s bf.binId bf.userIndex (-(price : Int))
    let s2 := adjustTokens s1 of0.binId of0.userIndex (ownerCut : Int)
    match mf? with
    | some mf =>
      if of0.binId ≠ mf.binId then adjustTokens s2 mf.binId mf.userIndex platformCut
      else adjustTokens s2 of0.binId of0.userIndex platformCut
    | none => s2
  | _, _ => s

/-! ## Save phase of the purchase endpoints -/

/-- How one `PUT` of a purchase save phase can turn out: the request
can reject at the network level (the only case `Promise.all` surfaces),
come back with a non-ok HTTP status (never inspected — the save phases
check no `res.ok`, src/server.js:988-1010 and 1132-1150), or succeed. -/
inductive WriteOutcome where
  | netFail
  | httpFail
  | httpOk
deriving DecidableEq, Repr

/-- The reconciliation record the spec requires for a partial commit
(affected accounts and intended delta).  The code has no store for
these and never writes one. -/
structure ReconEntry where
  accounts : List Nat
  delta : Int
  op : String
deriving DecidableEq, Repr

/-- Effect of the fired save-phase `PUT`s on the remote user bins: a
write is applied exactly when the backend executed it (an HTTP-level
failure or a network failure leaves the bin as it was). -/
def applySaves (s : Store) (saves : List ((String × List User) × WriteOutcome)) : Store :=
  saves.foldl (fun st x => if x.2 = .httpOk then putBin st x.1.1 x.1.2 else st) s

/-- The save phase shared by the purchase endpoints
(src/server.js:988-1012 and 1132-1160): all `PUT`s are fired and
awaited with `Promise.all`; no response's `ok` flag is checked, so the
handler reports success whenever no request rejects at the network
level, and a network rejection lands in the generic `catch`.  Nothing
is ever appended to a reconciliation log (none exists). -/
def purchaseSavePhase (s : Store)
    (saves : List ((String × List User) × WriteOutcome)) :
    Resp × Store × List ReconEntry :=
  if saves.any (fun x => decide (x.2 = .netFail)) then
    (.serverError "Server error during purchase.", applySaves s saves, [])
  else
    (.success "Purchase successful!", applySaves s saves, [])

/-! ## Purchase endpoints -/

/-- A row of a gamepass ownership bin (src/server.js:979-986). -/
structure Ownership where
  userId : Nat
  gamepasses : List Nat
deriving DecidableEq, Repr

instance : Inhabited Ownership := ⟨⟨0, []⟩⟩

/-- Recording a gamepass purchase in the ownership bin
(src/server.js:978-986). -/
def recordOwnership (ow : List Ownership) (userId gamepassId : Nat) : List Ownership :=
  match jsFindIndex (fun o => o.userId == userId) ow with
  | some i =>
    let o := ow.getD i default
    if o.gamepasses.contains gamepassId then ow
    else ow.set i { o with gamepasses := o.gamepasses ++ [gamepassId] }
  | none => ow ++ [⟨userId, [gamepassId]⟩]

/-- `POST /api/games/purchase-gamepass` (src/server.js:931-1018) up to
its `catch`.  After the buyer and platform-owner lookups succeed, the
handler destructures a `user` key that `findUserAndBin` never returns
(src/server.js:961 versus 147-151), so the balance check at
src/server.js:963 dereferences `undefined` and throws; the transaction
and save code below that point is unreachable. -/
def purchaseGamepassBody (s : Store) (ownership : List Ownership)
    (userId : Nat) (gameId : String) (gamepassId price : Nat) :
    Except JsError (Resp × Store × List Ownership) :=
  if userId = 0 ∨ gameId = "" ∨ gamepassId = 0 ∨ price = 0 then
    .ok (.badRequest "Missing purchase details.", s, ownership)
  else if ¬ (gameId = "dodge-the-blocks" ∨ gameId = "floor-is-lava") then
    .ok (.notFound "Game not found for gamepass system.", s, ownership)
  else
    match findUserAndBin s userId with
    | none => .ok (.notFound "Buyer not found.", s, ownership)
    | some buyerBinData =>
      match findByUsername s "madeonice" with
      | none => .ok (.serverError "Game owner not found.", s, ownership)
      | some ownerBinData => do
        -- src 961: `user: buyer` binds a key absent from the result
        let buyer : Option User := buyerBinData.userKey
        let buyerTokens ← jsGet buyer (fun u => u.authTokens)  -- src 963, throws
        if buyerTokens < (price : Int) then
          return (.badRequest "Insufficient AuthTokens.", s, ownership)
        let sT := gamepassTransaction s userId price
        let ownership' := recordOwnership ownership userId gamepassId
        let sW :=
          match findUserAndBin s ownerBinData.id with
          | some orr =>
            if orr.binId ≠ buyerBinData.binId then
              bumpRev (bumpRev sT buyerBinData.binId) orr.binId
            else bumpRev sT buyerBinData.binId
          | none => bumpRev sT buyerBinData.binId
        return (.success "Purchase successful!", sW, ownership')

/-- `POST /api/games/purchase-gamepass` with its `catch` wrapper
(src/server.js:1014-1017): a thrown `TypeError` becomes the generic
500 response and the remote stores keep their pre-request state (the
throw happens before any `PUT`). -/
def purchaseGamepassHandler (s : Store) (ownership : List Ownership)
    (userId : Nat) (gameId : String) (gamepassId price : Nat) :
    Resp × Store × List Ownership :=
  match purchaseGamepassBody s ownership userId gameId gamepassId price with
  | .ok out => out
  | .error _ => (.serverError "An internal server error occurred.", s, ownership)

/-- An authdonate gamepass (src/server.js:1035-1040). -/
structure Gamepass where
  id : Nat
  ownerId : Nat
  name : String
  price : Nat
deriving DecidableEq, Repr

/-- A leaderboard entry (src/server.js:1119-1130). -/
structure LBEntry where
  id : Nat
  username : String
  amount : Nat
deriving DecidableEq, Repr

instance : Inhabited LBEntry := ⟨⟨0, "", 0⟩⟩

/-- The additive leaderboard update of src/server.js:1118-1130: bump
the first entry with the given id, or append a fresh one. -/
def accumulateBoard (board : List LBEntry) (uid : Nat) (uname : String)
    (amount : Nat) : List LBEntry :=
  match jsFindIndex (fun e => e.id == uid) board with
  | some i =>
    let e := board.getD i default
    board.set i { e with amount := e.amount + amount }
  | none => board ++ [⟨uid, uname, amount⟩]

/-- `POST /api/authdonate/purchase` (src/server.js:1071-1165) up to its
`catch`.  Like `purchaseGamepassBody`, the destructurings at
src/server.js:1099-1100 bind `user` keys that do not exist, so the
balance check at src/server.js:1102 throws; everything below is
unreachable. -/
def authdonatePurchaseBody (s : Store) (gamepasses : List Gamepass)
    (donated raised : List LBEntry) (buyerId gamepassId : Nat) :
    Except JsError (Resp × Store × List LBEntry × List LBEntry) :=
  if buyerId = 0 ∨ gamepassId = 0 then
    .ok (.badRequest "Missing data.", s, donated, raised)
  else
    match gamepasses.find? (fun gp => gp.id == gamepassId) with
    | none => .ok (.notFound "Gamepass not found.", s, donated, raised)
    | some gamepass =>
      match findUserAndBin s buyerId, findUserAndBin s gamepass.ownerId with
      | some buyerBinData, some ownerBinData => do
        -- src 1099-1100: `user: buyer` / `user: owner` bind absent keys
        let buyer : Option User := buyerBinData.userKey
        let owner : Option User := ownerBinData.userKey
        let buyerTokens ← jsGet buyer (fun u => u.authTokens)  -- src 1102, throws
        if buyerTokens < (gamepass.price : Int) then
          return (.badRequest "Insufficient AuthTokens.", s, donated, raised)
        let sT := authdonateTransaction s buyerId gamepass.ownerId gamepass.price
        let bUsername ← jsGet buyer (fun u => u.username)
        let oUsername ← jsGet owner (fun u => u.username)
        let donated' := accumulateBoard donated buyerId bUsername gamepass.price
        let raised' := accumulateBoard raised gamepass.ownerId oUsername gamepass.price
        let sW :=
          let s1 := bumpRev (bumpRev sT buyerBinData.binId) ownerBinData.binId
          match (findByUsername s "madeonice").bind (fun m => findUserAndBin s m.id) with
          | some mf =>
            if mf.binId ≠ buyerBinData.binId ∧ mf.binId ≠ ownerBinData.binId then
              bumpRev s1 mf.binId
            else s1
          | none => s1
        return (.success "Purchase successful!", sW, donated', raised')
      | _, _ => .ok (.notFound "User not found.", s, donated, raised)

/-- `POST /api/authdonate/purchase` with its `catch` wrapper
(src/server.js:1161-1164). -/
def authdonatePurchaseHandler (s : Store) (gamepasses : List Gamepass)
    (donated raised : List LBEntry) (buyerId gamepassId : Nat) :
    Resp × Store × List LBEntry × List LBEntry :=
  match authdonatePurchaseBody s gamepasses donated raised buyerId gamepassId with
  | .ok out => out
  | .error _ => (.serverError "Server error during purchase.", s, donated, raised)

/-- Setting `gamepasses['floorislava_x2_score'] = true` on a user's
gamepass key-map (src/server.js:1320-1323), modelled on the key list. -/
def insertGamepassKey (l : List String) (k : String) : List String :=
  if l.contains k then l else l ++ [k]

/-- `POST /api/floorislava/purchase-score-multiplier`
(src/server.js:1278-1347) up to its `catch`.  The balance check at
src/server.js:1296 reads `buyerData.user.authTokens`, but `buyerData`
has no `user` key (src/server.js:147-151), so the check throws and the
rest of the handler is unreachable. -/
def floorislavaPurchaseBody (s : Store) (userId : Nat) :
    Except JsError (Resp × Store) :=
  if userId = 0 then .ok (.badRequest "User ID is required.", s)
  else
    match findUserAndBin s userId with
    | none => .ok (.notFound "Buyer not found.", s)
    | some buyerData => do
      let buyerTokens ← jsGet buyerData.userKey (fun u => u.authTokens)  -- src 1296, throws
      if buyerTokens < (2000 : Int) then
        return (.badRequest "Insufficient AuthTokens.", s)
      let owned ← jsGet buyerData.userKey
        (fun u => (u.gamepasses.getD []).contains "floorislava_x2_score")
      if owned then
        return (.badRequest "You already own this gamepass.", s)
      match findByUsername s "jasquire", findByUsername s "madeonice" with
      | some creatorData, some platformOwnerData =>
        let s1 := adjustTokens s buyerData.binId buyerData.userIndex (-(2000 : Int))
        let s2 := updateUserAt s1 buyerData.binId buyerData.userIndex (fun u =>
          { u with gamepasses := some (insertGamepassKey (u.gamepasses.getD [])
              "floorislava_x2_score") })
        let s3 :=
          match findUserAndBin s creatorData.id with
          | some cf => adjustTokens s2 cf.binId cf.userIndex 1000
          | none => s2
        let s4 :=
          match findUserAndBin s platformOwnerData.id with
          | some pf => adjustTokens s3 pf.binId pf.userIndex 1000
          | none => s3
        return (.success "Gamepass purchased successfully!", bumpRev s4 buyerData.binId)
      | _, _ =>
        return (.serverError "Game creator or platform owner account not found.", s)

/-- `POST /api/floorislava/purchase-score-multiplier` with its `catch`
wrapper (src/server.js:1343-1346). -/
def floorislavaPurchaseHandler (s : Store) (userId : Nat) : Resp × Store :=
  match floorislavaPurchaseBody s userId with
  | .ok out => out
  | .error _ => (.serverError "An internal server error occurred.", s)

/-- Forget the revision metadata of every bin: the part of the remote
state the JS code ever looks at. -/
def stripRevs (s : Store) : List (String × List User) :=
  s.map (fun b => (b.name, b.users))

/-! ## Helper lemmas -/

theorem collectReads_error_of_mem_fail {reads : List (String × ReadOutcome)}
    {b : String} (h : (b, ReadOutcome.fail) ∈ reads) :
    ∃ e, collectReads reads = .error e := by
  induction reads with
  | nil => cases h
  | cons x rest ih =>
    obtain ⟨bx, ox⟩ := x
    cases ox with
    | fail => exact ⟨"Failed to fetch bin: " ++ bx, rfl⟩
    | ok u? =>
      rcases List.mem_cons.mp h with h' | h'
      · cases h'
      · obtain ⟨e, he⟩ := ih h'
        exact ⟨e, by simp [collectReads, he, Except.map]⟩

theorem collectReads_ok_of_all_ok {reads : List (String × ReadOutcome)}
    (h : ∀ x ∈ reads, x.2 ≠ ReadOutcome.fail) :
    ∃ rs, collectReads reads = .ok rs := by
  induction reads with
  | nil => exact ⟨[], rfl⟩
  | cons x rest ih =>
    obtain ⟨bx, ox⟩ := x
    cases ox with
    | fail => exact absurd rfl (h (bx, .fail) (List.mem_cons_self _ _))
    | ok u? =>
      obtain ⟨rs, hrs⟩ := ih (fun y hy => h y (List.mem_cons_of_mem _ hy))
      exact ⟨⟨bx, u?.getD []⟩ :: rs, by simp [collectReads, hrs, Except.map]⟩

theorem jsFindIndex_get? {p : α → Bool} {l : List α} {i : Nat}
    (h : jsFindIndex p l = some i) : ∃ a, l.get? i = some a ∧ p a = true := by
  induction l generalizing i with
  | nil => cases h
  | cons x rest ih =>
    by_cases hx : p x
    · simp [jsFindIndex, hx] at h
      exact ⟨x, by simp [← h], hx⟩
    · simp [jsFindIndex, hx] at h
      obtain ⟨j, hj, hji⟩ := h
      obtain ⟨a, ha, hpa⟩ := ih hj
      exact ⟨a, by simpa [← hji] using ha, hpa⟩

theorem jsFindIndex_lt_length {p : α → Bool} {l : List α} {i : Nat}
    (h : jsFindIndex p l = some i) : i < l.length := by
  obtain ⟨a, ha, _⟩ := jsFindIndex_get? h
  exact List.get?_eq_some.mp ha |>.1

theorem find?_eq_none_of_jsFindIndex_none {p : α → Bool} {l : List α}
    (h : jsFindIndex p l = none) : l.find? p = none := by
  induction l with
  | nil => rfl
  | cons x rest ih =>
    by_cases hx : p x
    · simp [jsFindIndex, hx] at h
    · simp [jsFindIndex, hx, Option.map_eq_none] at h
      simp [List.find?, hx, ih h]

theorem find?_set_of_jsFindIndex {p : α → Bool} {l : List α} {i : Nat}
    (h : jsFindIndex p l = some i) {a' : α} (ha' : p a' = true) :
    (l.set i a').find? p = some a' := by
  induction l generalizing i with
  | nil => cases h
  | cons x rest ih =>
    by_cases hx : p x
    · simp [jsFindIndex, hx] at h
      simp [← h, List.set, List.find?, ha']
    · simp [jsFindIndex, hx] at h
      obtain ⟨j, hj, hji⟩ := h
      subst hji
      simp [List.set, List.find?, hx, ih hj]

theorem find?_append_of_some {p : α → Bool} {l₁ : List α} {a : α}
    (h : l₁.find? p = some a) (l₂ : List α) : (l₁ ++ l₂).find? p = some a := by
  rw [List.find?_append, h]
  rfl

theorem find?_append_of_none {p : α → Bool} {l₁ : List α}
    (h : l₁.find? p = none) (l₂ : List α) : (l₁ ++ l₂).find? p = l₂.find? p := by
  rw [List.find?_append, h]
  rfl

theorem findUserAndBin_mem_name {s : Store} {uid : Nat} {fr : FindResult}
    (h : findUserAndBin s uid = some fr) : fr.binId ∈ s.map Bin.name := by
  induction s with
  | nil => cases h
  | cons b rest ih =>
    simp only [findUserAndBin] at h
    rcases hidx : jsFindIndex (fun u => u.id == uid) b.users with _ | i
    · rw [hidx] at h
      exact List.mem_cons_of_mem _ (ih h)
    · rw [hidx] at h
      cases h
      exact List.mem_cons_self _ _

theorem findUserAndBin_binUsers {s : Store} {uid : Nat} {fr : FindResult}
    (hnd : (s.map Bin.name).Nodup) (h : findUserAndBin s uid = some fr) :
    binUsers s fr.binId = some fr.users := by
  induction s with
  | nil => cases h
  | cons b rest ih =>
    simp only [findUserAndBin] at h
    rcases hidx : jsFindIndex (fun u => u.id == uid) b.users with _ | i
    · rw [hidx] at h
      have hmem : fr.binId ∈ rest.map Bin.name := findUserAndBin_mem_name h
      have hne : b.name ≠ fr.binId := by
        intro hEq
        exact (List.nodup_cons.mp hnd).1 (hEq ▸ hmem)
      simpa [binUsers, hne] using ih (List.nodup_cons.mp hnd).2 h
    · rw [hidx] at h
      cases h
      simp [binUsers]

theorem findUserAndBin_index {s : Store} {uid : Nat} {fr : FindResult}
    (h : findUserAndBin s uid = some fr) :
    fr.userIndex < fr.users.length ∧
      (fr.users.getD fr.userIndex default).id = uid := by
  induction s with
  | nil => cases h
  | cons b rest ih =>
    simp only [findUserAndBin] at h
    rcases hidx : jsFindIndex (fun u => u.id == uid) b.users with _ | i
    · rw [hidx] at h
      exact ih h
    · rw [hidx] at h
      cases h
      obtain ⟨a, ha, hpa⟩ := jsFindIndex_get? hidx
      refine ⟨jsFindIndex_lt_length hidx, ?_⟩
      simp only [List.getD]
      rw [ha]
      simpa using hpa

theorem updateUsers_cons_zero (x : User) (l : List User) (f : User → User) :
    updateUsers (x :: l) 0 f = f x :: l := by
  simp [updateUsers]

theorem updateUsers_cons_succ (x : User) (l : List User) (i : Nat) (f : User → User) :
    updateUsers (x :: l) (i + 1) f = x :: updateUsers l i f := by
  simp only [updateUsers, List.get?]
  cases l.get? i <;> simp [List.set]

theorem updateUsers_length (l : List User) (i : Nat) (f : User → User) :
    (updateUsers l i f).length = l.length := by
  simp only [updateUsers]
  cases l.get? i <;> simp

theorem usersSum_cons (x : User) (l : List User) :
    usersSum (x :: l) = x.authTokens + usersSum l := by
  simp [usersSum]

theorem usersSum_updateUsers {l : List User} {i : Nat} {f : User → User} {d : Int}
    (hf : ∀ u, (f u).authTokens = u.authTokens + d) (hi : i < l.length) :
    usersSum (updateUsers l i f) = usersSum l + d := by
  induction l generalizing i with
  | nil => cases hi
  | cons x rest ih =>
    cases i with
    | zero =>
      rw [updateUsers_cons_zero, usersSum_cons, usersSum_cons, hf x]
      ring
    | succ j =>
      rw [updateUsers_cons_succ, usersSum_cons, usersSum_cons,
        ih (Nat.lt_of_succ_lt_succ hi)]
      ring

theorem storeSum_cons (b : Bin) (s : Store) :
    storeSum (b :: s) = usersSum b.users + storeSum s := by
  simp [storeSum]

theorem binUsers_updateUserAt_same (s : Store) (target : String) (i : Nat)
    (f : User → User) :
    binUsers (updateUserAt s target i f) target =
      (binUsers s target).map (fun us => updateUsers us i f) := by
  induction s with
  | nil => rfl
  | cons b rest ih =>
    by_cases hb : b.name = target
    · simp [updateUserAt, binUsers, hb]
    · simp [updateUserAt, binUsers, hb, ih]

theorem binUsers_updateUserAt_other {s : Store} {target other : String} (i : Nat)
    (f : User → User) (hne : other ≠ target) :
    binUsers (updateUserAt s target i f) other = binUsers s other := by
  induction s with
  | nil => rfl
  | cons b rest ih =>
    by_cases hb : b.name = target
    · have h1 : ¬ b.name = other := fun hEq => hne (hEq ▸ hb)
      rw [updateUserAt, if_pos hb]
      show (if b.name = other then _ else _) = _
      rw [if_neg h1, binUsers, if_neg h1]
    · rw [updateUserAt, if_neg hb]
      by_cases hb' : b.name = other
      · rw [binUsers, if_pos hb', binUsers, if_pos hb']
      · rw [binUsers, if_neg hb', binUsers, if_neg hb', ih]

theorem storeSum_updateUserAt {s : Store} {target : String} {i : Nat}
    {f : User → User} {d : Int} {us : List User}
    (hf : ∀ u, (f u).authTokens = u.authTokens + d)
    (hb : binUsers s target = some us) (hi : i < us.length) :
    storeSum (updateUserAt s target i f) = storeSum s + d := by
  induction s with
  | nil => cases hb
  | cons b rest ih =>
    by_cases hn : b.name = target
    · simp only [binUsers, hn, if_pos] at hb
      cases hb
      rw [updateUserAt, if_pos hn, storeSum_cons, storeSum_cons,
        usersSum_updateUsers hf hi]
      ring
    · simp only [binUsers, hn, if_neg, ite_false] at hb
      rw [updateUserAt, if_neg hn, storeSum_cons, storeSum_cons, ih hb]
      ring

theorem binUsers_putBin_self {s : Store} {target : String}
    (hmem : target ∈ s.map Bin.name) (us : List User) :
    binUsers (putBin s target us) target = some us := by
  induction s with
  | nil => cases hmem
  | cons b rest ih =>
    by_cases hb : b.name = target
    · simp [putBin, binUsers, hb]
    · have hmem' : target ∈ rest.map Bin.name := by
        rcases List.mem_cons.mp hmem with h | h
        · exact absurd h.symm hb
        · exact h
      simp [putBin, binUsers, hb, ih hmem']

theorem stripRevs_putBin_congr {s₁ s₂ : Store} (target : String) (us : List User)
    (h : stripRevs s₁ = stripRevs s₂) :
    stripRevs (putBin s₁ target us) = stripRevs (putBin s₂ target us) := by
  induction s₁ generalizing s₂ with
  | nil =>
    cases s₂ with
    | nil => rfl
    | cons b t => simp [stripRevs] at h
  | cons b₁ t₁ ih =>
    cases s₂ with
    | nil => simp [stripRevs] at h
    | cons b₂ t₂ =>
      simp only [stripRevs, List.map_cons, List.cons.injEq, Prod.mk.injEq] at h
      obtain ⟨⟨hn, hu⟩, ht⟩ := h
      by_cases hb : b₁.name = target
      · have hb₂ : b₂.name = target := hn.symm.trans hb
        rw [putBin, if_pos hb, putBin, if_pos hb₂]
        simp [stripRevs, hb, hb₂, ht]
      · have hb₂ : ¬ b₂.name = target := fun hEq => hb (hn.trans hEq)
        rw [putBin, if_neg hb, putBin, if_neg hb₂]
        have := ih ht
        simp only [stripRevs, List.map_cons, List.cons.injEq, Prod.mk.injEq]
        exact ⟨⟨hn, hu⟩, this⟩

theorem collectReads_none_eq_some_nil (pre post : List (String × ReadOutcome))
    (b : String) :
    collectReads (pre ++ (b, ReadOutcome.ok none) :: post) =
      collectReads (pre ++ (b, ReadOutcome.ok (some [])) :: post) := by
  induction pre with
  | nil => rfl
  | cons x pre' ih =>
    obtain ⟨bx, ox⟩ := x
    cases ox with
    | fail => rfl
    | ok u? => simp [collectReads, ih]

/-! ## Claim theorems -/

/-- C3: if the read of any one partition fails during the registry-wide
read, `fetchAllUserRecords` fails as a whole and returns no merged
view; a view missing a failed partition's accounts is never produced. -/
theorem readAll_fails_closed_on_partition_failure
    (reads : List (String × ReadOutcome)) {b : String}
    (h : (b, ReadOutcome.fail) ∈ reads) :
    ∃ e, fetchAllUserRecords reads = .error e := by
  obtain ⟨e, he⟩ := collectReads_error_of_mem_fail h
  exact ⟨e, by simp [fetchAllUserRecords, he, Except.map]⟩

theorem readAll_fails_closed_on_partition_failure_witness :
    ("b2", ReadOutcome.fail) ∈
      ([("b1", ReadOutcome.ok (some [])), ("b2", ReadOutcome.fail)] :
        List (String × ReadOutcome)) ∧
    ∃ e, fetchAllUserRecords
      [("b1", ReadOutcome.ok (some [])), ("b2", ReadOutcome.fail)] = .error e := by
  constructor
  · decide
  · exact readAll_fails_closed_on_partition_failure (b := "b2")
      [("b1", ReadOutcome.ok (some [])), ("b2", ReadOutcome.fail)] (by decide)

/-- C7: a partition whose document is absent or empty (a payload with no
`record.users`) is read as an empty account list: the read behaves
exactly as if the partition stored `[]`, and when no partition read
fails the whole operation succeeds. -/
theorem readAll_missing_document_as_empty
    (pre post : List (String × ReadOutcome)) (b : String) :
    fetchAllUserRecords (pre ++ (b, ReadOutcome.ok none) :: post) =
      fetchAllUserRecords (pre ++ (b, ReadOutcome.ok (some [])) :: post) ∧
    ((∀ x ∈ pre ++ (b, ReadOutcome.ok none) :: post, x.2 ≠ ReadOutcome.fail) →
      ∃ v, fetchAllUserRecords (pre ++ (b, ReadOutcome.ok none) :: post) = .ok v) := by
  constructor
  · simp [fetchAllUserRecords, collectReads_none_eq_some_nil]
  · intro h
    obtain ⟨rs, hrs⟩ := collectReads_ok_of_all_ok h
    exact ⟨((rs.map (fun r => r.users)).foldr (· ++ ·) [], rs),
      by simp [fetchAllUserRecords, hrs, Except.map]⟩

theorem readAll_missing_document_as_empty_witness :
    fetchAllUserRecords
        [("b1", ReadOutcome.ok (some [⟨1, "a", 5, none, none, none⟩])),
         ("b2", ReadOutcome.ok none)] =
      fetchAllUserRecords
        [("b1", ReadOutcome.ok (some [⟨1, "a", 5, none, none, none⟩])),
         ("b2", ReadOutcome.ok (some []))] ∧
    ∃ v, fetchAllUserRecords
        [("b1", ReadOutcome.ok (some [⟨1, "a", 5, none, none, none⟩])),
         ("b2", ReadOutcome.ok none)] = .ok v := by
  constructor
  · exact (readAll_missing_document_as_empty
      [("b1", ReadOutcome.ok (some [⟨1, "a", 5, none, none, none⟩]))] [] "b2").1
  · exact (readAll_missing_document_as_empty
      [("b1", ReadOutcome.ok (some [⟨1, "a", 5, none, none, none⟩]))] [] "b2").2
      (by decide)

/-- C5 (counterexample): on a view in which account id 1 appears in two
partitions, `findUserAndBin` does not signal any corruption error — it
has no error outcome at all — and silently resolves the id to the copy
in the first partition. -/
theorem findUserAndBin_duplicate_silent_cex :
    ((mergedUsers
        [⟨"b1", 0, [⟨1, "alice", 50, none, none, none⟩]⟩,
         ⟨"b2", 0, [⟨1, "alicecopy", 70, none, none, none⟩]⟩]).filter
          (fun u => u.id == 1)).length = 2 ∧
    findUserAndBin
        [⟨"b1", 0, [⟨1, "alice", 50, none, none, none⟩]⟩,
         ⟨"b2", 0, [⟨1, "alicecopy", 70, none, none, none⟩]⟩] 1 =
      some ⟨"b1", [⟨1, "alice", 50, none, none, none⟩], 0⟩ := by decide

/-- C5 (amended): when the same id occurs in several partitions,
`findUserAndBin` silently resolves it to the earliest partition in
`ALL_USERS_BIN_IDS` order: a hit in a prefix of the bin list is
returned unchanged no matter what the remaining bins contain, and only
when the prefix misses is the rest consulted. -/
theorem findUserAndBin_first_partition_wins (s₁ s₂ : Store) (uid : Nat) :
    (∀ fr, findUserAndBin s₁ uid = some fr →
      findUserAndBin (s₁ ++ s₂) uid = some fr) ∧
    (findUserAndBin s₁ uid = none →
      findUserAndBin (s₁ ++ s₂) uid = findUserAndBin s₂ uid) := by
  induction s₁ with
  | nil => exact ⟨fun fr h => (nomatch h), fun _ => rfl⟩
  | cons b rest ih =>
    constructor
    · intro fr h
      rw [List.cons_append]
      rw [findUserAndBin] at h ⊢
      rcases hidx : jsFindIndex (fun u => u.id == uid) b.users with _ | i
      · rw [hidx] at h ⊢
        exact ih.1 fr h
      · rw [hidx] at h ⊢
        exact h
    · intro h
      rw [List.cons_append]
      rw [findUserAndBin] at h ⊢
      rcases hidx : jsFindIndex (fun u => u.id == uid) b.users with _ | i
      · rw [hidx] at h ⊢
        exact ih.2 h
      · rw [hidx] at h
        cases h

theorem findUserAndBin_first_partition_wins_witness :
    findUserAndBin
        ([⟨"b1", 0, [⟨1, "alice", 50, none, none, none⟩]⟩] ++
         [⟨"b2", 0, [⟨1, "alicecopy", 70, none, none, none⟩]⟩]) 1 =
      some ⟨"b1", [⟨1, "alice", 50, none, none, none⟩], 0⟩ ∧
    findUserAndBin
        ([⟨"b1", 0, [⟨1, "alice", 50, none, none, none⟩]⟩] ++
         [⟨"b2", 0, [⟨2, "bob", 70, none, none, none⟩]⟩]) 2 =
      findUserAndBin [⟨"b2", 0, [⟨2, "bob", 70, none, none, none⟩]⟩] 2 := by
  constructor
  · exact (findUserAndBin_first_partition_wins
      [⟨"b1", 0, [⟨1, "alice", 50, none, none, none⟩]⟩]
      [⟨"b2", 0, [⟨1, "alicecopy", 70, none, none, none⟩]⟩] 1).1
      ⟨"b1", [⟨1, "alice", 50, none, none, none⟩], 0⟩ (by decide)
  · exact (findUserAndBin_first_partition_wins
      [⟨"b1", 0, [⟨1, "alice", 50, none, none, none⟩]⟩]
      [⟨"b2", 0, [⟨2, "bob", 70, none, none, none⟩]⟩] 2).2 (by decide)

/-- C1 (counterexample): the `pay-fee` commit performs no re-read and
no marker comparison.  Here the partition's revision at write time (2)
differs from the revision observed at checkout (1) — a concurrent
writer appended the account `bob` in between — yet the commit succeeds
and overwrites the partition with data derived from the checkout state,
erasing `bob` (a lost update) instead of returning `WriteConflict`. -/
theorem payFee_writes_despite_changed_marker_cex :
    binRev [⟨"b1", 2, [⟨1, "alice", 5000, none, none, none⟩,
        ⟨9, "bob", 77, none, none, none⟩]⟩] "b1" ≠
      binRev [⟨"b1", 1, [⟨1, "alice", 5000, none, none, none⟩]⟩] "b1" ∧
    payFeeTwoPhase [⟨"b1", 1, [⟨1, "alice", 5000, none, none, none⟩]⟩]
        [⟨"b1", 2, [⟨1, "alice", 5000, none, none, none⟩,
          ⟨9, "bob", 77, none, none, none⟩]⟩] 1 =
      (.success "Payment successful!",
        [⟨"b1", 3, [⟨1, "alice", 4000, none, none, none⟩]⟩]) := by decide

/-- C1 (amended): the write-back of a partition's account list never
re-reads the partition and never compares a revision marker: the
outcome of a `pay-fee` commit is entirely insensitive to the revision
markers of the state it writes into, and whenever the checkout-time
balance check passes the commit writes the list computed from the
checkout state unconditionally; no `WriteConflict` outcome exists. -/
theorem payFee_commit_ignores_revision_marker :
    (∀ s0 s1 s2 uid, stripRevs s1 = stripRevs s2 →
      (payFeeTwoPhase s0 s1 uid).1 = (payFeeTwoPhase s0 s2 uid).1 ∧
      stripRevs (payFeeTwoPhase s0 s1 uid).2 =
        stripRevs (payFeeTwoPhase s0 s2 uid).2) ∧
    (∀ s0 s1 uid fr, findUserAndBin s0 uid = some fr →
      ¬ (fr.users.getD fr.userIndex default).authTokens < 1000 →
      fr.binId ∈ s1.map Bin.name →
      (payFeeTwoPhase s0 s1 uid).1 = .success "Payment successful!" ∧
      binUsers (payFeeTwoPhase s0 s1 uid).2 fr.binId =
        some (fr.users.set fr.userIndex
          { fr.users.getD fr.userIndex default with
              authTokens := (fr.users.getD fr.userIndex default).authTokens - 1000 })) := by
  constructor
  · intro s0 s1 s2 uid h
    rcases hf : findUserAndBin s0 uid with _ | fr
    · simp only [payFeeTwoPhase, hf]
      exact ⟨trivial, h⟩
    · by_cases hbal : (fr.users.getD fr.userIndex default).authTokens < 1000
      · simp only [payFeeTwoPhase, hf, if_pos hbal]
        exact ⟨trivial, h⟩
      · simp only [payFeeTwoPhase, hf, if_neg hbal]
        exact ⟨trivial, stripRevs_putBin_congr _ _ h⟩
  · intro s0 s1 uid fr hf hbal hmem
    simp only [payFeeTwoPhase, hf, if_neg hbal]
    exact ⟨trivial, binUsers_putBin_self hmem _⟩

theorem payFee_commit_ignores_revision_marker_witness :
    ((payFeeTwoPhase [⟨"b1", 0, [⟨1, "a", 5000, none, none, none⟩]⟩]
        [⟨"b1", 5, [⟨1, "a", 5000, none, none, none⟩]⟩] 1).1 =
      (payFeeTwoPhase [⟨"b1", 0, [⟨1, "a", 5000, none, none, none⟩]⟩]
        [⟨"b1", 9, [⟨1, "a", 5000, none, none, none⟩]⟩] 1).1) ∧
    binUsers (payFeeTwoPhase [⟨"b1", 0, [⟨1, "a", 5000, none, none, none⟩]⟩]
        [⟨"b1", 5, [⟨1, "a", 5000, none, none, none⟩]⟩] 1).2 "b1" =
      some [⟨1, "a", 4000, none, none, none⟩] := by
  constructor
  · exact (payFee_commit_ignores_revision_marker.1
      [⟨"b1", 0, [⟨1, "a", 5000, none, none, none⟩]⟩]
      [⟨"b1", 5, [⟨1, "a", 5000, none, none, none⟩]⟩]
      [⟨"b1", 9, [⟨1, "a", 5000, none, none, none⟩]⟩] 1 (by decide)).1
  · have h := (payFee_commit_ignores_revision_marker.2
      [⟨"b1", 0, [⟨1, "a", 5000, none, none, none⟩]⟩]
      [⟨"b1", 5, [⟨1, "a", 5000, none, none, none⟩]⟩] 1
      ⟨"b1", [⟨1, "a", 5000, none, none, none⟩], 0⟩
      (by decide) (by decide) (by decide)).2
    exact h.trans (by decide)

/-- C6 (counterexample): in the purchase save phase, the first write
(the buyer's debited bin) is executed and the second write (the
payee's credited bin) fails at the HTTP level; the handler still
reports plain success, applies no `PartialCommit` status, and records
no reconciliation entry — the half-committed transfer is invisible. -/
theorem save_phase_partial_failure_reports_success_cex :
    purchaseSavePhase
        [⟨"b1", 0, [⟨1, "alice", 100, none, none, none⟩]⟩,
         ⟨"b2", 0, [⟨2, "bob", 50, none, none, none⟩]⟩]
        [(("b1", [⟨1, "alice", 0, none, none, none⟩]), .httpOk),
         (("b2", [⟨2, "bob", 150, none, none, none⟩]), .httpFail)] =
      (.success "Purchase successful!",
        [⟨"b1", 1, [⟨1, "alice", 0, none, none, none⟩]⟩,
         ⟨"b2", 0, [⟨2, "bob", 50, none, none, none⟩]⟩], []) := by decide

/-- C6 (amended): the purchase save phase never records a
reconciliation entry and never reports `PartialCommit` (no such
outcome exists): it reports plain success exactly when no write
rejects at the network level — even when a write failed at the HTTP
level after earlier writes succeeded — and a network-level rejection
is reported as the generic internal server error. -/
theorem save_phase_no_partial_commit_reporting (s : Store)
    (saves : List ((String × List User) × WriteOutcome)) :
    (purchaseSavePhase s saves).2.2 = [] ∧
    ((∀ x ∈ saves, x.2 ≠ WriteOutcome.netFail) →
      (purchaseSavePhase s saves).1 = .success "Purchase successful!") ∧
    ((∃ x ∈ saves, x.2 = WriteOutcome.netFail) →
      (purchaseSavePhase s saves).1 =
        .serverError "Server error during purchase.") := by
  refine ⟨?_, ?_, ?_⟩
  · by_cases hc : saves.any (fun x => decide (x.2 = WriteOutcome.netFail)) <;>
      simp [purchaseSavePhase, hc]
  · intro h
    have hc : saves.any (fun x => decide (x.2 = WriteOutcome.netFail)) = false := by
      simp only [List.any_eq_false, decide_eq_true_eq]
      exact h
    simp [purchaseSavePhase, hc]
  · intro h
    obtain ⟨x, hx, hfail⟩ := h
    have hc : saves.any (fun x => decide (x.2 = WriteOutcome.netFail)) = true := by
      simp only [List.any_eq_true, decide_eq_true_eq]
      exact ⟨x, hx, hfail⟩
    simp [purchaseSavePhase, hc]

theorem save_phase_no_partial_commit_reporting_witness :
    ((purchaseSavePhase [] [(("b1", []), WriteOutcome.httpOk)]).1 =
      .success "Purchase successful!") ∧
    ((purchaseSavePhase [] [(("b1", []), WriteOutcome.netFail)]).1 =
      .serverError "Server error during purchase.") := by
  constructor
  · exact (save_phase_no_partial_commit_reporting []
      [(("b1", []), WriteOutcome.httpOk)]).2.1 (by decide)
  · exact (save_phase_no_partial_commit_reporting []
      [(("b1", []), WriteOutcome.netFail)]).2.2 ⟨(("b1", []), WriteOutcome.netFail), by decide, rfl⟩

/-- C2: the debit endpoints reject an insufficient balance before any
write: when the payer's balance is below the fee, `pay-fee` responds
400 and `create-group` responds 403, and in both cases every partition
(and the groups store) is returned exactly as it was. -/
theorem insufficient_balance_rejected_no_write :
    (∀ s uid fr, findUserAndBin s uid = some fr →
      (fr.users.getD fr.userIndex default).authTokens < 1000 →
      payFeeHandler s uid = (.badRequest "Not enough AuthTokens.", s)) ∧
    (∀ s groups uid gn gd gi now fr,
      ¬ (uid = 0 ∨ gn = "" ∨ gd = "") →
      findUserAndBin s uid = some fr →
      (fr.users.getD fr.userIndex default).authTokens < 5000 →
      createGroupHandler s groups uid gn gd gi now =
        (.forbidden "Insufficient AuthTokens.", s, groups)) := by
  constructor
  · intro s uid fr hf hbal
    simp only [payFeeHandler, payFeeTwoPhase, hf, if_pos hbal]
  · intro s groups uid gn gd gi now fr hvalid hf hbal
    simp only [createGroupHandler, if_neg hvalid, hf, if_pos hbal]

theorem insufficient_balance_rejected_no_write_witness :
    payFeeHandler [⟨"b1", 0, [⟨1, "al", 500, none, none, none⟩]⟩] 1 =
      (.badRequest "Not enough AuthTokens.",
        [⟨"b1", 0, [⟨1, "al", 500, none, none, none⟩]⟩]) ∧
    createGroupHandler [⟨"b1", 0, [⟨1, "al", 500, none, none, none⟩]⟩] [] 1
        "g" "d" "" "t" =
      (.forbidden "Insufficient AuthTokens.",
        [⟨"b1", 0, [⟨1, "al", 500, none, none, none⟩]⟩], []) := by
  constructor
  · exact insufficient_balance_rejected_no_write.1
      [⟨"b1", 0, [⟨1, "al", 500, none, none, none⟩]⟩] 1
      ⟨"b1", [⟨1, "al", 500, none, none, none⟩], 0⟩ (by decide) (by decide)
  · exact insufficient_balance_rejected_no_write.2
      [⟨"b1", 0, [⟨1, "al", 500, none, none, none⟩]⟩] [] 1 "g" "d" "" "t"
      ⟨"b1", [⟨1, "al", 500, none, none, none⟩], 0⟩ (by decide) (by decide) (by decide)

theorem storeSum_adjustTokens {s : Store} {b : String} {i : Nat} {d : Int}
    {us : List User} (hb : binUsers s b = some us) (hi : i < us.length) :
    storeSum (adjustTokens s b i d) = storeSum s + d := by
  exact storeSum_updateUserAt (fun u => rfl) hb hi

theorem adjust_spot {s : Store} {b : String} {i : Nat} {d : Int}
    {b' : String} {i' : Nat} {us' : List User}
    (hb : binUsers s b' = some us') (hi : i' < us'.length) :
    ∃ us'', binUsers (adjustTokens s b i d) b' = some us'' ∧ i' < us''.length := by
  by_cases hEq : b' = b
  · subst hEq
    refine ⟨updateUsers us' i (fun u => { u with authTokens := u.authTokens + d }), ?_, ?_⟩
    · rw [adjustTokens, binUsers_updateUserAt_same, hb]
      rfl
    · rw [updateUsers_length]
      exact hi
  · exact ⟨us', by rw [adjustTokens, binUsers_updateUserAt_other _ _ hEq]; exact hb, hi⟩

/-- C4 (counterexample): a gamepass purchase at price 100. The buyer's
balance decreases by exactly 100, but the only payee (the platform
owner) is credited merely `floor(100 * 0.35) + floor(100 * 0.05) = 40`
(the JS double products are exact here), so the credits do not sum to
the price and the global balance sum drops from 1000 to 940. -/
theorem gamepass_purchase_sum_not_conserved_cex :
    storeSum [⟨"b1", 0, [⟨1, "buyer", 1000, none, none, none⟩,
        ⟨2, "madeonice", 0, none, none, none⟩]⟩] = 1000 ∧
    gamepassTransaction
        [⟨"b1", 0, [⟨1, "buyer", 1000, none, none, none⟩,
          ⟨2, "madeonice", 0, none, none, none⟩]⟩] 1 100 =
      [⟨"b1", 0, [⟨1, "buyer", 900, none, none, none⟩,
        ⟨2, "madeonice", 40, none, none, none⟩]⟩] ∧
    storeSum (gamepassTransaction
        [⟨"b1", 0, [⟨1, "buyer", 1000, none, none, none⟩,
          ⟨2, "madeonice", 0, none, none, none⟩]⟩] 1 100) = 940 := by decide

/-- C4 (amended): the buyer is debited the full price in both purchase
transactions, but only the authdonate purchase conserves the global
balance sum (its platform cut is the exact remainder
`price - ownerCut`, provided the platform account exists); the
gamepass purchase credits its payee only
`floor(0.35 * price) + floor(0.05 * price)`, so the global sum
decreases by the difference. -/
theorem purchase_balance_deltas :
    (∀ (s : Store) (uid price : Nat) (bf : FindResult) (ow : User) (of0 : FindResult),
      (s.map Bin.name).Nodup →
      findUserAndBin s uid = some bf →
      findByUsername s "madeonice" = some ow →
      findUserAndBin s ow.id = some of0 →
      storeSum (gamepassTransaction s uid price) =
        storeSum s - price +
          ((gamepassOwnerCut price : Int) + (gamepassPlatformCut price : Int))) ∧
    (∀ (s : Store) (bId oId price : Nat) (bf of0 : FindResult) (m : User)
      (mf : FindResult),
      (s.map Bin.name).Nodup →
      findUserAndBin s bId = some bf →
      findUserAndBin s oId = some of0 →
      findByUsername s "madeonice" = some m →
      findUserAndBin s m.id = some mf →
      storeSum (authdonateTransaction s bId oId price) = storeSum s) := by
  constructor
  · intro s uid price bf ow of0 hnd hbf hmo hof
    have hb1 := findUserAndBin_binUsers hnd hbf
    have hi1 := (findUserAndBin_index hbf).1
    have hb2 := findUserAndBin_binUsers hnd hof
    have hi2 := (findUserAndBin_index hof).1
    simp only [gamepassTransaction, hbf, hmo, hof]
    obtain ⟨us'', hb2', hi2'⟩ := adjust_spot (b := bf.binId) (i := bf.userIndex)
      (d := -(price : Int)) hb2 hi2
    rw [storeSum_adjustTokens hb2' hi2', storeSum_adjustTokens hb1 hi1]
    ring
  · intro s bId oId price bf of0 m mf hnd hbf hof hm hmf
    have hb1 := findUserAndBin_binUsers hnd hbf
    have hi1 := (findUserAndBin_index hbf).1
    have hb2 := findUserAndBin_binUsers hnd hof
    have hi2 := (findUserAndBin_index hof).1
    have hb3 := findUserAndBin_binUsers hnd hmf
    have hi3 := (findUserAndBin_index hmf).1
    simp only [authdonateTransaction, hbf, hof, hm, Option.some_bind, hmf]
    obtain ⟨usA, hb2', hi2'⟩ := adjust_spot (b := bf.binId) (i := bf.userIndex)
      (d := -(price : Int)) hb2 hi2
    obtain ⟨usB, hb1', hi1'⟩ := adjust_spot (b := bf.binId) (i := bf.userIndex)
      (d := -(price : Int)) hb1 hi1
    by_cases hbin : of0.binId ≠ mf.binId
    · rw [if_pos hbin]
      obtain ⟨usC, hb3', hi3'⟩ := adjust_spot (b := bf.binId) (i := bf.userIndex)
        (d := -(price : Int)) hb3 hi3
      obtain ⟨usD, hb3'', hi3''⟩ := adjust_spot (b := of0.binId) (i := of0.userIndex)
        (d := (authdonateOwnerCut price : Int)) hb3' hi3'
      rw [storeSum_adjustTokens hb3'' hi3'', storeSum_adjustTokens hb2' hi2',
        storeSum_adjustTokens hb1 hi1]
      ring
    · rw [if_neg hbin]
      obtain ⟨usD, hb2'', hi2''⟩ := adjust_spot (b := of0.binId) (i := of0.userIndex)
        (d := (authdonateOwnerCut price : Int)) hb2' hi2'
      rw [storeSum_adjustTokens hb2'' hi2'', storeSum_adjustTokens hb2' hi2',
        storeSum_adjustTokens hb1 hi1]
      ring

theorem purchase_balance_deltas_witness :
    storeSum (gamepassTransaction
        [⟨"b1", 0, [⟨1, "buyer", 1000, none, none, none⟩,
          ⟨2, "madeonice", 0, none, none, none⟩]⟩] 1 100) =
      storeSum [⟨"b1", 0, [⟨1, "buyer", 1000, none, none, none⟩,
          ⟨2, "madeonice", 0, none, none, none⟩]⟩] - 100 +
        ((gamepassOwnerCut 100 : Int) + (gamepassPlatformCut 100 : Int)) ∧
    storeSum (authdonateTransaction
        [⟨"b1", 0, [⟨1, "buyer", 1000, none, none, none⟩,
          ⟨2, "owner", 0, none, none, none⟩,
          ⟨3, "madeonice", 0, none, none, none⟩]⟩] 1 2 100) =
      storeSum [⟨"b1", 0, [⟨1, "buyer", 1000, none, none, none⟩,
          ⟨2, "owner", 0, none, none, none⟩,
          ⟨3, "madeonice", 0, none, none, none⟩]⟩] := by
  constructor
  · exact purchase_balance_deltas.1
      [⟨"b1", 0, [⟨1, "buyer", 1000, none, none, none⟩,
        ⟨2, "madeonice", 0, none, none, none⟩]⟩] 1 100
      ⟨"b1", [⟨1, "buyer", 1000, none, none, none⟩,
        ⟨2, "madeonice", 0, none, none, none⟩], 0⟩
      ⟨2, "madeonice", 0, none, none, none⟩
      ⟨"b1", [⟨1, "buyer", 1000, none, none, none⟩,
        ⟨2, "madeonice", 0, none, none, none⟩], 1⟩
      (by decide) (by decide) (by decide) (by decide)
  · exact purchase_balance_deltas.2
      [⟨"b1", 0, [⟨1, "buyer", 1000, none, none, none⟩,
        ⟨2, "owner", 0, none, none, none⟩,
        ⟨3, "madeonice", 0, none, none, none⟩]⟩] 1 2 100
      ⟨"b1", [⟨1, "buyer", 1000, none, none, none⟩,
        ⟨2, "owner", 0, none, none, none⟩,
        ⟨3, "madeonice", 0, none, none, none⟩], 0⟩
      ⟨"b1", [⟨1, "buyer", 1000, none, none, none⟩,
        ⟨2, "owner", 0, none, none, none⟩,
        ⟨3, "madeonice", 0, none, none, none⟩], 1⟩
      ⟨3, "madeonice", 0, none, none, none⟩
      ⟨"b1", [⟨1, "buyer", 1000, none, none, none⟩,
        ⟨2, "owner", 0, none, none, none⟩,
        ⟨3, "madeonice", 0, none, none, none⟩], 2⟩
      (by decide) (by decide) (by decide) (by decide) (by decide)

theorem searchFound_putBin {s : Store} {uid : Nat} {fr : FindResult}
    (hnd : (s.map Bin.name).Nodup) (hf : findUserAndBin s uid = some fr)
    {u' : User} (hid : u'.id = uid) :
    searchFound (putBin s fr.binId (fr.users.set fr.userIndex u')) uid = some u' := by
  induction s with
  | nil => cases hf
  | cons b rest ih =>
    rw [findUserAndBin] at hf
    rcases hidx : jsFindIndex (fun u => u.id == uid) b.users with _ | i
    · rw [hidx] at hf
      have hmem : fr.binId ∈ rest.map Bin.name := findUserAndBin_mem_name hf
      have hne : b.name ≠ fr.binId := by
        intro hEq
        exact (List.nodup_cons.mp hnd).1 (hEq ▸ hmem)
      rw [putBin, if_neg hne]
      rw [searchFound, mergedUsers,
        find?_append_of_none (find?_eq_none_of_jsFindIndex_none hidx)]
      exact ih (List.nodup_cons.mp hnd).2 hf
    · rw [hidx] at hf
      cases hf
      rw [putBin, if_pos rfl]
      rw [searchFound, mergedUsers]
      exact find?_append_of_some
        (find?_set_of_jsFindIndex hidx (by simp [hid])) _

/-- C8: after a successful `pay-fee` commit, with no interleaved
writes, the account located by a fresh `lookupAccount`
(`GET /api/users/search/:id`, which re-fetches every partition and
finds the id in the merged view) is exactly the mutated account value
the commit wrote: the fee deduction is immediately visible
(read-your-write). -/
theorem lookup_after_payFee_reads_write
    (s : Store) (uid : Nat) (fr : FindResult)
    (hnd : (s.map Bin.name).Nodup)
    (hf : findUserAndBin s uid = some fr)
    (hbal : ¬ (fr.users.getD fr.userIndex default).authTokens < 1000) :
    payFeeHandler s uid = (.success "Payment successful!",
      putBin s fr.binId (fr.users.set fr.userIndex
        { fr.users.getD fr.userIndex default with
            authTokens := (fr.users.getD fr.userIndex default).authTokens - 1000 })) ∧
    searchFound (payFeeHandler s uid).2 uid =
      some { fr.users.getD fr.userIndex default with
          authTokens := (fr.users.getD fr.userIndex default).authTokens - 1000 } := by
  have hresult : payFeeHandler s uid = (.success "Payment successful!",
      putBin s fr.binId (fr.users.set fr.userIndex
        { fr.users.getD fr.userIndex default with
            authTokens := (fr.users.getD fr.userIndex default).authTokens - 1000 })) := by
    simp only [payFeeHandler, payFeeTwoPhase, hf, if_neg hbal]
  refine ⟨hresult, ?_⟩
  rw [hresult]
  exact searchFound_putBin hnd hf (findUserAndBin_index hf).2

theorem lookup_after_payFee_reads_write_witness :
    payFeeHandler [⟨"b1", 0, [⟨1, "a", 5000, none, none, none⟩]⟩] 1 =
      (.success "Payment successful!",
        [⟨"b1", 1, [⟨1, "a", 4000, none, none, none⟩]⟩]) ∧
    searchFound (payFeeHandler [⟨"b1", 0, [⟨1, "a", 5000, none, none, none⟩]⟩] 1).2 1 =
      some ⟨1, "a", 4000, none, none, none⟩ := by
  have h := lookup_after_payFee_reads_write
    [⟨"b1", 0, [⟨1, "a", 5000, none, none, none⟩]⟩] 1
    ⟨"b1", [⟨1, "a", 5000, none, none, none⟩], 0⟩
    (by decide) (by decide) (by decide)
  exact ⟨h.1.trans (by decide), h.2.trans (by decide)⟩

theorem jsGet_userKey_error {α : Type} (bd : FindResult) (f : User → α) :
    jsGet bd.userKey f = .error .typeError := rfl

/-- C9: `findUserAndBin` returns only `binId`, `users` and `userIndex`
and never a `user` field, so in all three purchase endpoints the
destructured `user` binding is `undefined`; whenever the buyer exists
(and the preceding lookups succeed), evaluating the balance check
dereferences `undefined`, the thrown `TypeError` lands in the `catch`,
the handler answers with its internal-server-error response, and no
partition or auxiliary store is written; on no input whatsoever do
these three endpoints return a success response or write anything. -/
theorem purchase_endpoints_throw_on_absent_user_field :
    (∀ (s : Store) (ow : List Ownership) (uid : Nat) (gameId : String)
        (gpid price : Nat) (bd : FindResult) (ou : User),
      ¬ (uid = 0 ∨ gameId = "" ∨ gpid = 0 ∨ price = 0) →
      (gameId = "dodge-the-blocks" ∨ gameId = "floor-is-lava") →
      findUserAndBin s uid = some bd →
      findByUsername s "madeonice" = some ou →
      purchaseGamepassHandler s ow uid gameId gpid price =
        (.serverError "An internal server error occurred.", s, ow)) ∧
    (∀ (s : Store) (gps : List Gamepass) (donated raised : List LBEntry)
        (bid gpid : Nat) (gp : Gamepass) (bd od : FindResult),
      ¬ (bid = 0 ∨ gpid = 0) →
      gps.find? (fun g => g.id == gpid) = some gp →
      findUserAndBin s bid = some bd →
      findUserAndBin s gp.ownerId = some od →
      authdonatePurchaseHandler s gps donated raised bid gpid =
        (.serverError "Server error during purchase.", s, donated, raised)) ∧
    (∀ (s : Store) (uid : Nat) (bd : FindResult),
      uid ≠ 0 → findUserAndBin s uid = some bd →
      floorislavaPurchaseHandler s uid =
        (.serverError "An internal server error occurred.", s)) ∧
    (∀ (s : Store) (ow : List Ownership) (uid : Nat) (gameId : String)
        (gpid price : Nat),
      (purchaseGamepassHandler s ow uid gameId gpid price).2 = (s, ow) ∧
      ∀ m, (purchaseGamepassHandler s ow uid gameId gpid price).1 ≠ .success m) ∧
    (∀ (s : Store) (gps : List Gamepass) (donated raised : List LBEntry)
        (bid gpid : Nat),
      (authdonatePurchaseHandler s gps donated raised bid gpid).2 =
        (s, donated, raised) ∧
      ∀ m, (authdonatePurchaseHandler s gps donated raised bid gpid).1 ≠
        .success m) ∧
    (∀ (s : Store) (uid : Nat),
      (floorislavaPurchaseHandler s uid).2 = s ∧
      ∀ m, (floorislavaPurchaseHandler s uid).1 ≠ .success m) := by
  refine ⟨?_, ?_, ?_, ?_, ?_, ?_⟩
  · intro s ow uid gameId gpid price bd ou hvalid hgame hbd hmo
    have hu : ¬ uid = 0 := fun hh => hvalid (Or.inl hh)
    have hp1 : ¬ gpid = 0 := fun hh => hvalid (Or.inr (Or.inr (Or.inl hh)))
    have hp2 : ¬ price = 0 := fun hh => hvalid (Or.inr (Or.inr (Or.inr hh)))
    rcases hgame with h | h <;> subst h <;>
      simp [purchaseGamepassHandler, purchaseGamepassBody, hu, hp1, hp2,
        hbd, hmo, FindResult.userKey, jsGet, Bind.bind, Except.bind]
  · intro s gps donated raised bid gpid gp bd od hvalid hgp hbd hod
    have hu : ¬ bid = 0 := fun hh => hvalid (Or.inl hh)
    have hp1 : ¬ gpid = 0 := fun hh => hvalid (Or.inr hh)
    simp [authdonatePurchaseHandler, authdonatePurchaseBody, hu, hp1,
      hgp, hbd, hod, FindResult.userKey, jsGet, Bind.bind, Except.bind]
  · intro s uid bd huid hbd
    simp [floorislavaPurchaseHandler, floorislavaPurchaseBody, huid, hbd,
      FindResult.userKey, jsGet, Bind.bind, Except.bind]
  · intro s ow uid gameId gpid price
    by_cases h1 : uid = 0 ∨ gameId = "" ∨ gpid = 0 ∨ price = 0
    · simp [purchaseGamepassHandler, purchaseGamepassBody, if_pos h1]
    · have hu : ¬ uid = 0 := fun hh => h1 (Or.inl hh)
      have hg : ¬ gameId = "" := fun hh => h1 (Or.inr (Or.inl hh))
      have hp1 : ¬ gpid = 0 := fun hh => h1 (Or.inr (Or.inr (Or.inl hh)))
      have hp2 : ¬ price = 0 := fun hh => h1 (Or.inr (Or.inr (Or.inr hh)))
      by_cases h2 : gameId = "dodge-the-blocks" ∨ gameId = "floor-is-lava"
      · rcases hbd : findUserAndBin s uid with _ | bd
        · rcases h2 with h | h <;> subst h <;>
            simp [purchaseGamepassHandler, purchaseGamepassBody, hu, hp1, hp2, hbd]
        · rcases hmo : findByUsername s "madeonice" with _ | ou
          · rcases h2 with h | h <;> subst h <;>
              simp [purchaseGamepassHandler, purchaseGamepassBody, hu, hp1, hp2,
                hbd, hmo]
          · rcases h2 with h | h <;> subst h <;>
              simp [purchaseGamepassHandler, purchaseGamepassBody, hu, hp1, hp2,
                hbd, hmo, FindResult.userKey, jsGet, Bind.bind, Except.bind]
      · have h2' := not_or.mp h2
        simp [purchaseGamepassHandler, purchaseGamepassBody, hu, hg, hp1, hp2,
          h2'.1, h2'.2]
  · intro s gps donated raised bid gpid
    by_cases h1 : bid = 0 ∨ gpid = 0
    · simp [authdonatePurchaseHandler, authdonatePurchaseBody, if_pos h1]
    · have hu : ¬ bid = 0 := fun hh => h1 (Or.inl hh)
      have hp1 : ¬ gpid = 0 := fun hh => h1 (Or.inr hh)
      rcases hgp : gps.find? (fun g => g.id == gpid) with _ | gp
      · simp [authdonatePurchaseHandler, authdonatePurchaseBody, hu, hp1, hgp]
      · rcases hbd : findUserAndBin s bid with _ | bd
        · simp [authdonatePurchaseHandler, authdonatePurchaseBody, hu, hp1,
            hgp, hbd]
        · rcases hod : findUserAndBin s gp.ownerId with _ | od
          · simp [authdonatePurchaseHandler, authdonatePurchaseBody, hu, hp1,
              hgp, hbd, hod]
          · simp [authdonatePurchaseHandler, authdonatePurchaseBody, hu, hp1,
              hgp, hbd, hod, FindResult.userKey, jsGet, Bind.bind, Except.bind]
  · intro s uid
    by_cases h1 : uid = 0
    · simp [floorislavaPurchaseHandler, floorislavaPurchaseBody, if_pos h1]
    · rcases hbd : findUserAndBin s uid with _ | bd
      · simp [floorislavaPurchaseHandler, floorislavaPurchaseBody, h1, hbd]
      · simp [floorislavaPurchaseHandler, floorislavaPurchaseBody, h1, hbd,
          FindResult.userKey, jsGet, Bind.bind, Except.bind]

theorem purchase_endpoints_throw_on_absent_user_field_witness :
    purchaseGamepassHandler
        [⟨"b1", 0, [⟨1, "buyer", 9000, none, none, none⟩,
          ⟨2, "madeonice", 0, none, none, none⟩]⟩] [] 1 "dodge-the-blocks" 7 100 =
      (.serverError "An internal server error occurred.",
        [⟨"b1", 0, [⟨1, "buyer", 9000, none, none, none⟩,
          ⟨2, "madeonice", 0, none, none, none⟩]⟩], []) ∧
    authdonatePurchaseHandler
        [⟨"b1", 0, [⟨1, "buyer", 9000, none, none, none⟩,
          ⟨2, "owner", 0, none, none, none⟩]⟩] [⟨7, 2, "gp", 100⟩] [] [] 1 7 =
      (.serverError "Server error during purchase.",
        [⟨"b1", 0, [⟨1, "buyer", 9000, none, none, none⟩,
          ⟨2, "owner", 0, none, none, none⟩]⟩], [], []) ∧
    floorislavaPurchaseHandler
        [⟨"b1", 0, [⟨1, "buyer", 9000, none, none, none⟩]⟩] 1 =
      (.serverError "An internal server error occurred.",
        [⟨"b1", 0, [⟨1, "buyer", 9000, none, none, none⟩]⟩]) := by
  refine ⟨?_, ?_, ?_⟩
  · exact purchase_endpoints_throw_on_absent_user_field.1
      [⟨"b1", 0, [⟨1, "buyer", 9000, none, none, none⟩,
        ⟨2, "madeonice", 0, none, none, none⟩]⟩] [] 1 "dodge-the-blocks" 7 100
      ⟨"b1", [⟨1, "buyer", 9000, none, none, none⟩,
        ⟨2, "madeonice", 0, none, none, none⟩], 0⟩
      ⟨2, "madeonice", 0, none, none, none⟩
      (by decide) (Or.inl rfl) (by decide) (by decide)
  · exact purchase_endpoints_throw_on_absent_user_field.2.1
      [⟨"b1", 0, [⟨1, "buyer", 9000, none, none, none⟩,
        ⟨2, "owner", 0, none, none, none⟩]⟩] [⟨7, 2, "gp", 100⟩] [] [] 1 7
      ⟨7, 2, "gp", 100⟩
      ⟨"b1", [⟨1, "buyer", 9000, none, none, none⟩,
        ⟨2, "owner", 0, none, none, none⟩], 0⟩
      ⟨"b1", [⟨1, "buyer", 9000, none, none, none⟩,
        ⟨2, "owner", 0, none, none, none⟩], 1⟩
      (by decide) (by decide) (by decide) (by decide)
  · exact purchase_endpoints_throw_on_absent_user_field.2.2.1
      [⟨"b1", 0, [⟨1, "buyer", 9000, none, none, none⟩]⟩] 1
      ⟨"b1", [⟨1, "buyer", 9000, none, none, none⟩], 0⟩
      (by decide) (by decide)

theorem get?_set_self {l : List α} {i : Nat} {a : α} (h : i < l.length) :
    (l.set i a).get? i = some a := by
  induction l generalizing i with
  | nil => cases h
  | cons x rest ih =>
    cases i with
    | zero => rfl
    | succ j => exact ih (Nat.lt_of_succ_lt_succ h)

theorem get?_set_other {l : List α} {i j : Nat} (a : α) (h : j ≠ i) :
    (l.set i a).get? j = l.get? j := by
  induction l generalizing i j with
  | nil => rfl
  | cons x rest ih =>
    cases i with
    | zero =>
      cases j with
      | zero => exact absurd rfl h
      | succ j' => rfl
    | succ i' =>
      cases j with
      | zero => rfl
      | succ j' => exact ih (fun hEq => h (congrArg Nat.succ hEq))

theorem get?_eq_some_getD {l : List α} {i : Nat} (h : i < l.length) (d : α) :
    l.get? i = some (l.getD i d) := by
  induction l generalizing i with
  | nil => cases h
  | cons x rest ih =>
    cases i with
    | zero => rfl
    | succ j => exact ih (Nat.lt_of_succ_lt_succ h)

theorem updateUsers_get?_same (l : List User) (i : Nat) (f : User → User) :
    (updateUsers l i f).get? i = (l.get? i).map f := by
  rcases h : l.get? i with _ | u
  · rw [updateUsers, h]
    exact h
  · have hi : i < l.length := (List.get?_eq_some.mp h).1
    rw [updateUsers, h]
    exact get?_set_self hi

theorem updateUsers_get?_other (l : List User) {i j : Nat} (f : User → User)
    (h : j ≠ i) : (updateUsers l i f).get? j = l.get? j := by
  rw [updateUsers]
  rcases hu : l.get? i with _ | u
  · rfl
  · exact get?_set_other _ h

theorem userAt?_updateUserAt_same {s : Store} {b : String} {i : Nat}
    {f : User → User} :
    userAt? (updateUserAt s b i f) b i = (userAt? s b i).map f := by
  rw [userAt?, userAt?, binUsers_updateUserAt_same]
  rcases h : binUsers s b with _ | us
  · rfl
  · exact updateUsers_get?_same us i f

theorem userAt?_updateUserAt_other_bin {s : Store} {b : String} {i : Nat}
    {f : User → User} {b' : String} {i' : Nat} (h : b' ≠ b) :
    userAt? (updateUserAt s b i f) b' i' = userAt? s b' i' := by
  rw [userAt?, userAt?, binUsers_updateUserAt_other _ _ h]

theorem userAt?_updateUserAt_other_idx {s : Store} {b : String} {i : Nat}
    {f : User → User} {i' : Nat} (h : i' ≠ i) :
    userAt? (updateUserAt s b i f) b i' = userAt? s b i' := by
  rw [userAt?, userAt?, binUsers_updateUserAt_same]
  rcases hb : binUsers s b with _ | us
  · rfl
  · exact updateUsers_get?_other us f h

theorem stripRevs_bumpRev (s : Store) (b : String) :
    stripRevs (bumpRev s b) = stripRevs s := by
  induction s with
  | nil => rfl
  | cons x rest ih =>
    by_cases hx : x.name = b
    · rw [bumpRev, if_pos hx]
      rfl
    · rw [bumpRev, if_neg hx]
      simp only [stripRevs, List.map_cons]
      exact congrArg _ ih

theorem binUsers_congr {s₁ s₂ : Store} (h : stripRevs s₁ = stripRevs s₂)
    (b : String) : binUsers s₁ b = binUsers s₂ b := by
  induction s₁ generalizing s₂ with
  | nil =>
    cases s₂ with
    | nil => rfl
    | cons y t => simp [stripRevs] at h
  | cons x t ih =>
    cases s₂ with
    | nil => simp [stripRevs] at h
    | cons y t₂ =>
      simp only [stripRevs, List.map_cons, List.cons.injEq, Prod.mk.injEq] at h
      obtain ⟨⟨hn, hu⟩, ht⟩ := h
      rw [binUsers, binUsers, hn, hu]
      by_cases hy : y.name = b
      · rw [if_pos hy, if_pos hy]
      · rw [if_neg hy, if_neg hy]
        exact ih ht

theorem binUsers_bumpRev (s : Store) (b b' : String) :
    binUsers (bumpRev s b) b' = binUsers s b' :=
  binUsers_congr (stripRevs_bumpRev s b) b'

theorem userAt?_bumpRev {s : Store} {b b' : String} {i : Nat} :
    userAt? (bumpRev s b) b' i = userAt? s b' i := by
  rw [userAt?, userAt?, binUsers_bumpRev]

theorem userAt?_of_find {s : Store} {uid : Nat} {fr : FindResult}
    (hnd : (s.map Bin.name).Nodup) (hf : findUserAndBin s uid = some fr) :
    userAt? s fr.binId fr.userIndex =
      some (fr.users.getD fr.userIndex default) := by
  rw [userAt?, findUserAndBin_binUsers hnd hf, Option.some_bind,
    get?_eq_some_getD (findUserAndBin_index hf).1]

theorem contains_true_iff_mem {l : List Nat} {x : Nat} :
    l.contains x = true ↔ x ∈ l := by
  simp [List.contains]

theorem count_pushList {l : List Nat} {x : Nat} (h : l.count x ≤ 1) :
    (if l.contains x then l else l ++ [x]).count x = 1 := by
  by_cases hc : l.contains x
  · rw [if_pos hc]
    have hpos : 0 < l.count x := List.count_pos_iff.mpr (contains_true_iff_mem.mp hc)
    omega
  · rw [if_neg hc]
    have hmem : x ∉ l := fun hm => hc (contains_true_iff_mem.mpr hm)
    rw [List.count_append, List.count_eq_zero_of_not_mem hmem,
      List.count_singleton_self]

theorem contains_of_count_eq_one {l : List Nat} {x : Nat} (h : l.count x = 1) :
    l.contains x = true :=
  contains_true_iff_mem.mpr (List.count_pos_iff.mp (by omega))

theorem pushFriend_friends_getD (x : Nat) (v : User) :
    (pushFriendIfAbsent x v).friends.getD [] =
      if (v.friends.getD []).contains x then v.friends.getD []
      else v.friends.getD [] ++ [x] := by
  rw [pushFriendIfAbsent]
  by_cases hc : (v.friends.getD []).contains x
  · rw [if_pos hc, if_pos hc]
  · rw [if_neg hc, if_neg hc]
    rfl

theorem count_pushFriend {v : User} {x : Nat}
    (h : (v.friends.getD []).count x ≤ 1) :
    ((pushFriendIfAbsent x v).friends.getD []).count x = 1 := by
  rw [pushFriend_friends_getD]
  exact count_pushList h

theorem pushFriend_requests (x : Nat) (v : User) :
    (pushFriendIfAbsent x v).friendRequests = v.friendRequests := by
  rw [pushFriendIfAbsent]
  by_cases hc : (v.friends.getD []).contains x
  · rw [if_pos hc]
  · rw [if_neg hc]

theorem pushFriend_noop {v : User} {x : Nat}
    (h : (v.friends.getD []).contains x = true) :
    pushFriendIfAbsent x v = v := by
  rw [pushFriendIfAbsent, if_pos h]

theorem mem_dropRequests {u : User} {r : Nat} {q : FriendReq}
    (hq : q ∈ (dropRequestsFrom r u).friendRequests.getD []) :
    q.fromId ≠ r := by
  rw [dropRequestsFrom] at hq
  have : q ∈ (u.friendRequests.getD []).filter (fun a => a.fromId != r) := hq
  have := (List.mem_filter.mp this).2
  simpa using this

/-- C10 (counterexample): if the accepter's friends list already holds
the requester twice before the call (e.g. after prior corruption), a
successful accept leaves the requester appearing twice, not exactly
once: the guarded push never creates duplicates, but it also never
repairs a pre-existing one. -/
theorem accept_friend_preexisting_duplicate_cex :
    (acceptFriendHandler
        [⟨"b1", 0, [⟨1, "al", 0, some [2, 2], none, none⟩,
          ⟨2, "bo", 0, some [], none, none⟩]⟩] 1 2).1 =
      .success "Friend request accepted." ∧
    userAt? (acceptFriendHandler
        [⟨"b1", 0, [⟨1, "al", 0, some [2, 2], none, none⟩,
          ⟨2, "bo", 0, some [], none, none⟩]⟩] 1 2).2 "b1" 0 =
      some ⟨1, "al", 0, some [2, 2], some [], none⟩ ∧
    (([2, 2] : List Nat).count 2 = 2) := by decide

/-- C10 (amended): for a successful accept where both users exist and,
beforehand, each id appears at most once in the other's friends list,
afterwards the requester appears exactly once in the accepter's friends
list and the accepter exactly once in the requester's friends list, and
no pending request from the requester remains on the accepter — all of
this also when no pending request existed before the call. -/
theorem accept_friend_no_duplicates_amended
    (s : Store) (accepterId requesterId : Nat) (af rf : FindResult)
    (hnd : (s.map Bin.name).Nodup)
    (ha0 : accepterId ≠ 0) (hr0 : requesterId ≠ 0)
    (haf : findUserAndBin s accepterId = some af)
    (hrf : findUserAndBin s requesterId = some rf)
    (hca : ((af.users.getD af.userIndex default).friends.getD []).count requesterId ≤ 1)
    (hcr : ((rf.users.getD rf.userIndex default).friends.getD []).count accepterId ≤ 1) :
    (acceptFriendHandler s accepterId requesterId).1 =
      .success "Friend request accepted." ∧
    ∃ ua' ur',
      userAt? (acceptFriendHandler s accepterId requesterId).2
        af.binId af.userIndex = some ua' ∧
      userAt? (acceptFriendHandler s accepterId requesterId).2
        rf.binId rf.userIndex = some ur' ∧
      (ua'.friends.getD []).count requesterId = 1 ∧
      (ur'.friends.getD []).count accepterId = 1 ∧
      ∀ q ∈ ua'.friendRequests.getD [], q.fromId ≠ requesterId := by
  have hvalid : ¬ (accepterId = 0 ∨ requesterId = 0) := fun h => h.elim ha0 hr0
  constructor
  · simp [acceptFriendHandler, if_neg hvalid, haf, hrf]
  · by_cases hbin : af.binId = rf.binId
    · by_cases hidx : af.userIndex = rf.userIndex
      · -- same bin, same index: the accepter and the requester are the
        -- same stored user, hence the same id and the same find result
        have hbu1 := findUserAndBin_binUsers hnd haf
        have hbu2 := findUserAndBin_binUsers hnd hrf
        rw [← hbin] at hbu2
        have husers : rf.users = af.users := Option.some.inj (hbu2.symm.trans hbu1)
        have hua_ur : rf.users.getD rf.userIndex default =
            af.users.getD af.userIndex default := by
          rw [husers, ← hidx]
        have hids : accepterId = requesterId := by
          have h1 := (findUserAndBin_index haf).2
          have h2 := (findUserAndBin_index hrf).2
          rw [hua_ur] at h2
          exact h1.symm.trans h2
        subst hids
        have hfr : af = rf := Option.some.inj (haf.symm.trans hrf)
        subst hfr
        have hw : ((pushFriendIfAbsent accepterId (ensureFriends (ensureFriends
            (dropRequestsFrom accepterId
              (af.users.getD af.userIndex default))))).friends.getD []).count
            accepterId = 1 := count_pushFriend hca
        have hnoop := pushFriend_noop (contains_of_count_eq_one hw)
        refine ⟨_, _, ?_, ?_, hw, hw, ?_⟩
        · simp only [acceptFriendHandler, if_neg hvalid, haf]
          rw [if_true]
          rw [userAt?_bumpRev, userAt?_updateUserAt_same,
            userAt?_updateUserAt_same, userAt?_updateUserAt_same,
            userAt?_updateUserAt_same, userAt?_updateUserAt_same,
            userAt?_of_find hnd haf]
          simp only [Option.map_some']
          rw [hnoop]
        · simp only [acceptFriendHandler, if_neg hvalid, haf]
          rw [if_true]
          rw [userAt?_bumpRev, userAt?_updateUserAt_same,
            userAt?_updateUserAt_same, userAt?_updateUserAt_same,
            userAt?_updateUserAt_same, userAt?_updateUserAt_same,
            userAt?_of_find hnd haf]
          simp only [Option.map_some']
          rw [hnoop]
        · intro q hq
          rw [pushFriend_requests] at hq
          exact mem_dropRequests hq
      · -- same bin, different indices: independent slots of one bin
        have hofR : userAt? s af.binId rf.userIndex =
            some (rf.users.getD rf.userIndex default) := by
          rw [hbin]
          exact userAt?_of_find hnd hrf
        refine ⟨pushFriendIfAbsent requesterId (ensureFriends (dropRequestsFrom
            requesterId (af.users.getD af.userIndex default))),
          pushFriendIfAbsent accepterId (ensureFriends
            (rf.users.getD rf.userIndex default)),
          ?_, ?_, count_pushFriend hca, count_pushFriend hcr, ?_⟩
        · simp only [acceptFriendHandler, if_neg hvalid, haf, hrf]
          rw [if_pos hbin, ← hbin]
          rw [userAt?_bumpRev, userAt?_updateUserAt_other_idx hidx,
            userAt?_updateUserAt_same, userAt?_updateUserAt_other_idx hidx,
            userAt?_updateUserAt_same, userAt?_updateUserAt_same,
            userAt?_of_find hnd haf]
          rfl
        · simp only [acceptFriendHandler, if_neg hvalid, haf, hrf]
          rw [if_pos hbin, ← hbin]
          rw [userAt?_bumpRev, userAt?_updateUserAt_same,
            userAt?_updateUserAt_other_idx (Ne.symm hidx),
            userAt?_updateUserAt_same,
            userAt?_updateUserAt_other_idx (Ne.symm hidx),
            userAt?_updateUserAt_other_idx (Ne.symm hidx),
            hofR]
          rfl
        · intro q hq
          rw [pushFriend_requests] at hq
          exact mem_dropRequests hq
    · -- different bins: fully independent slots
      refine ⟨pushFriendIfAbsent requesterId (ensureFriends (dropRequestsFrom
          requesterId (af.users.getD af.userIndex default))),
        pushFriendIfAbsent accepterId (ensureFriends
          (rf.users.getD rf.userIndex default)),
        ?_, ?_, count_pushFriend hca, count_pushFriend hcr, ?_⟩
      · simp only [acceptFriendHandler, if_neg hvalid, haf, hrf]
        rw [if_neg hbin]
        rw [userAt?_bumpRev, userAt?_bumpRev,
          userAt?_updateUserAt_other_bin hbin,
          userAt?_updateUserAt_same,
          userAt?_updateUserAt_other_bin hbin,
          userAt?_updateUserAt_same, userAt?_updateUserAt_same,
          userAt?_of_find hnd haf]
        rfl
      · simp only [acceptFriendHandler, if_neg hvalid, haf, hrf]
        rw [if_neg hbin]
        rw [userAt?_bumpRev, userAt?_bumpRev,
          userAt?_updateUserAt_same,
          userAt?_updateUserAt_other_bin (Ne.symm hbin),
          userAt?_updateUserAt_same,
          userAt?_updateUserAt_other_bin (Ne.symm hbin),
          userAt?_updateUserAt_other_bin (Ne.symm hbin),
          userAt?_of_find hnd hrf]
        rfl
      · intro q hq
        rw [pushFriend_requests] at hq
        exact mem_dropRequests hq

theorem accept_friend_no_duplicates_amended_witness :
    (acceptFriendHandler
        [⟨"b1", 0, [⟨1, "al", 0, some [], some [⟨2, "bo"⟩], none⟩,
          ⟨2, "bo", 0, some [], none, none⟩]⟩] 1 2).1 =
      .success "Friend request accepted." ∧
    ∃ ua' ur',
      userAt? (acceptFriendHandler
          [⟨"b1", 0, [⟨1, "al", 0, some [], some [⟨2, "bo"⟩], none⟩,
            ⟨2, "bo", 0, some [], none, none⟩]⟩] 1 2).2 "b1" 0 = some ua' ∧
      userAt? (acceptFriendHandler
          [⟨"b1", 0, [⟨1, "al", 0, some [], some [⟨2, "bo"⟩], none⟩,
            ⟨2, "bo", 0, some [], none, none⟩]⟩] 1 2).2 "b1" 1 = some ur' ∧
      (ua'.friends.getD []).count 2 = 1 ∧
      (ur'.friends.getD []).count 1 = 1 ∧
      ∀ q ∈ ua'.friendRequests.getD [], q.fromId ≠ 2 := by
  exact accept_friend_no_duplicates_amended
    [⟨"b1", 0, [⟨1, "al", 0, some [], some [⟨2, "bo"⟩], none⟩,
      ⟨2, "bo", 0, some [], none, none⟩]⟩] 1 2
    ⟨"b1", [⟨1, "al", 0, some [], some [⟨2, "bo"⟩], none⟩,
      ⟨2, "bo", 0, some [], none, none⟩], 0⟩
    ⟨"b1", [⟨1, "al", 0, some [], some [⟨2, "bo"⟩], none⟩,
      ⟨2, "bo", 0, some [], none, none⟩], 1⟩
    (by decide) (by decide) (by decide) (by decide) (by decide)
    (by decide) (by decide)
